import Mathlib

/-!
# sample-http-client-otlp: a shallow embedding of `main.go` and `tracing.go`

The two Go files are embedded as pure functions with explicit state passing.

* The OpenTelemetry tracer that the Go code reaches through the global
  `otel.Tracer("myTracer")` is an explicit parameter `Tracer σ`, acting on a
  world state `σ` (SDK state, span processor, network).
* `http.ResponseWriter`, `http.Header` and the request are plain records.
* Go errors are values of `GoError`; a Go `panic(err)` is `Outcome.panicked err`.
* `int64` values are integers, with the wrap-around of `+` written out
  (`wrapInt64`).
* `getTls` and `setupTracing` read files and call library constructors; these
  are fields of an environment record.

The sampler and the propagator that `setupTracing` installs are library code
(the OpenTelemetry SDK); they are modelled from the specification and marked so.
-/

namespace OtlpSample

/-! ## Go values -/

/-- A Go `error` value, identified by its message. -/
structure GoError where
  msg : String
deriving DecidableEq, Repr

/-- How a Go function call finishes: it returns, or it panics with an error value. -/
inductive Outcome where
  | returned : Outcome
  | panicked (err : GoError) : Outcome
deriving DecidableEq, Repr

/-- Lower bound of `int64`. -/
def minInt64 : Int := -(2 ^ 63)

/-- Upper bound of `int64`. -/
def maxInt64 : Int := 2 ^ 63 - 1

/-- Go `int64` arithmetic keeps the low 64 bits of a result and reads them as a
two's-complement number; `wrapInt64 z` is that reading of the integer `z`. -/
def wrapInt64 (z : Int) : Int := (z + 2 ^ 63) % 2 ^ 64 - 2 ^ 63

/-- The reading of an unsigned 64-bit pattern `u` as an `int64`. -/
def asInt64 (u : Int) : Int := if u < 2 ^ 63 then u else u - 2 ^ 64

/-- Decimal digits of `n`, most significant first, prepended to `acc`. -/
def decimalDigits : Nat → Nat → List Char → List Char
  | 0, _, acc => acc
  | fuel + 1, n, acc =>
    let acc1 := Char.ofNat (48 + n % 10) :: acc
    if n / 10 = 0 then acc1 else decimalDigits fuel (n / 10) acc1

/-- The text that `fmt.Sprint(v)` and the verb `%d` produce for an integer `v`:
its decimal digits, with a leading minus sign when negative. -/
def formatInt : Int → String
  | Int.ofNat n => String.mk (decimalDigits (n + 1) n [])
  | Int.negSucc n => String.mk ('-' :: decimalDigits (n + 2) (n + 1) [])

/-! ## net/http: headers, response writer, requests -/

/-- The characters net/textproto accepts in a header field name (RFC 7230 token). -/
def isTokenChar (c : Char) : Bool :=
  c.isAlphanum || "!#$%&*+-.^_|~".toList.contains c || c = Char.ofNat 39 || c = Char.ofNat 96

/-- The inner loop of `textproto.canonicalMIMEHeaderKey`: a letter is upper-cased
when it starts the name or follows a hyphen, and lower-cased otherwise. -/
def canonicalLoop : Bool → List Char → List Char
  | _, [] => []
  | upper, c :: cs =>
    let c1 := if upper then c.toUpper else c.toLower
    c1 :: canonicalLoop (c1 = '-') cs

/-- Modelled from the spec: `textproto.CanonicalMIMEHeaderKey` is standard-library
code not under src/. A name holding a character that is not a token character is
returned unchanged; otherwise the name is put in canonical case. -/
def CanonicalMIMEHeaderKey (s : String) : String :=
  if s.toList.all isTokenChar then String.mk (canonicalLoop true s.toList) else s

/-- Go `http.Header` (`map[string][]string`): each stored key with its values, in
the order the values were added. -/
abbrev Header := List (String × List String)

/-- The values stored under exactly the key `k` (`h[k]`, empty when absent). -/
def Header.lookup : Header → String → List String
  | [], _ => []
  | (k1, vs) :: rest, k => if k1 = k then vs else Header.lookup rest k

/-- The map update `h[k] = append(h[k], v)`. -/
def Header.append : Header → String → String → Header
  | [], k, v => [(k, [v])]
  | (k1, vs) :: rest, k, v =>
    if k1 = k then (k1, vs ++ [v]) :: rest else (k1, vs) :: Header.append rest k v

/-- Modelled from the spec: `http.Header.Add` is standard-library code not under
src/. It appends the value to the values stored under the canonical form of the key. -/
def Header.Add (h : Header) (key value : String) : Header :=
  Header.append h (CanonicalMIMEHeaderKey key) value

/-- The map update `h[k] = []string{v}`. -/
def Header.replace : Header → String → String → Header
  | [], k, v => [(k, [v])]
  | (k1, vs) :: rest, k, v =>
    if k1 = k then (k1, [v]) :: rest else (k1, vs) :: Header.replace rest k v

/-- Modelled from the spec: `http.Header.Set` is standard-library code not under
src/. It replaces the values stored under the canonical form of the key by the one
value. -/
def Header.Set (h : Header) (key value : String) : Header :=
  Header.replace h (CanonicalMIMEHeaderKey key) value

/-- Modelled from the spec: `http.Header.Values` is standard-library code not under
src/. All values stored under the canonical form of the key. -/
def Header.Values (h : Header) (key : String) : List String :=
  Header.lookup h (CanonicalMIMEHeaderKey key)

/-- Modelled from the spec: `http.Header.Get` is standard-library code not under
src/. The first value stored under the canonical form of the key, or the empty
string when there is none. -/
def Header.Get (h : Header) (key : String) : String :=
  match Header.Values h key with
  | [] => ""
  | v :: _ => v

/-- The server side of one HTTP exchange (`http.ResponseWriter`). `header` is the
map returned by `w.Header()`; `sentHeader` and `status` are what went on the wire
when the header was written; `body` is the bytes written so far. -/
structure ResponseWriter where
  header : Header
  wroteHeader : Bool
  status : Nat
  sentHeader : Header
  body : String
deriving DecidableEq, Repr

/-- The response writer a handler receives for a new request. -/
def ResponseWriter.fresh : ResponseWriter :=
  { header := [], wroteHeader := false, status := 0, sentHeader := [], body := "" }

/-- The call `w.Header().Add(key, value)`. -/
def ResponseWriter.headerAdd (w : ResponseWriter) (key value : String) : ResponseWriter :=
  { w with header := Header.Add w.header key value }

/-- The call `w.WriteHeader(code)`: the first call sends the status line and a snapshot
of the header map; later calls are ignored. -/
def ResponseWriter.writeHeader (w : ResponseWriter) (code : Nat) : ResponseWriter :=
  if w.wroteHeader then w
  else { w with wroteHeader := true, status := code, sentHeader := w.header }

/-- The call `w.Write(data)`: sends the header with status 200 when it has not been
sent yet, then appends the data to the body. -/
def ResponseWriter.write (w : ResponseWriter) (data : String) : ResponseWriter :=
  let w1 := w.writeHeader 200
  { w1 with body := w1.body ++ data }

/-! ## OpenTelemetry API: span contexts and the tracer -/

/-- The identity of a span (`trace.SpanContext`). Trace ids are 128-bit and span
ids 64-bit numbers; the all-zero id is the invalid one. -/
structure SpanContext where
  traceID : Fin (2 ^ 128)
  spanID : Fin (2 ^ 64)
  sampled : Bool
  traceState : String
  remote : Bool
deriving DecidableEq, Repr

/-- The test `SpanContext.IsValid`: both ids are non-zero. -/
def SpanContext.isValid (sc : SpanContext) : Bool :=
  decide (sc.traceID.val ≠ 0) && decide (sc.spanID.val ≠ 0)

/-- A Go `context.Context`, reduced to the span it carries (if any). -/
abbrev Context := Option SpanContext

/-- A span attribute (`attribute.KeyValue`). -/
inductive KeyValue where
  | string (key value : String) : KeyValue
  | int (key : String) (value : Int) : KeyValue
deriving DecidableEq, Repr

/-- A span status code (`codes.Code`). -/
inductive StatusCode where
  | unset : StatusCode
  | error : StatusCode
  | ok : StatusCode
deriving DecidableEq, Repr

/-- The tracer behind `otel.Tracer("myTracer")`, acting on a world state `σ`.
`start` is `Tracer.Start(ctx, name, opts...)` and yields the new span;
`setStatus` is `span.SetStatus`; `endSpan` is `span.End()`. -/
structure Tracer (σ : Type) where
  start : σ → Context → String → List KeyValue → SpanContext × σ
  setStatus : σ → SpanContext → StatusCode → String → σ
  endSpan : σ → SpanContext → σ

/-- An inbound or outbound HTTP request. -/
structure Request where
  method : String
  url : String
  header : Header
  ctx : Context
deriving DecidableEq, Repr

/-- The response a client receives. -/
structure HttpResponse where
  status : Nat
  header : Header
  body : String
deriving DecidableEq, Repr

/-- The result of running a handler: the world state afterwards, the response
writer afterwards, and whether the handler returned or panicked. -/
structure HandlerRun (σ : Type) where
  world : σ
  w : ResponseWriter
  outcome : Outcome

/-- What the client of a server observes for one request. -/
inductive ClientVisible where
  | response (resp : HttpResponse) : ClientVisible
  | connectionAborted : ClientVisible
deriving DecidableEq, Repr

/-- Modelled from the spec: the per-request part of `http.Server` is standard-library
code not under src/. The handler runs on a fresh response writer. When it returns,
the header is sent with status 200 unless already sent, and the client receives the
response. When it panics, the server recovers the panic and drops the connection, so
the client receives no response. -/
def serve {σ : Type} (handler : σ → ResponseWriter → Request → HandlerRun σ)
    (s : σ) (r : Request) : ClientVisible × σ :=
  let run := handler s ResponseWriter.fresh r
  match run.outcome with
  | Outcome.returned =>
    let w := run.w.writeHeader 200
    (ClientVisible.response { status := w.status, header := w.sentHeader, body := w.body },
      run.world)
  | Outcome.panicked _ => (ClientVisible.connectionAborted, run.world)

/-! ## main.go -/

/-- The constant `serviceName`. -/
def serviceName : String := "AdderSvc"

/-- The function `add` of main.go: starts the span "add" with its three attributes,
computes `x + y` on `int64`, and ends the span on return. -/
def add {σ : Type} (T : Tracer σ) (s : σ) (ctx : Context) (x y : Int) : Int × σ :=
  let started := T.start s ctx "add"
    [KeyValue.string "component" "addition", KeyValue.string "someKey" "someValue",
      KeyValue.int "age" 89]
  (wrapInt64 (x + y), T.endSpan started.2 started.1)

/-- The function `serviceB_HttpHandler` of main.go. -/
def serviceB_HttpHandler {σ : Type} (T : Tracer σ) (s : σ) (w : ResponseWriter)
    (r : Request) : HandlerRun σ :=
  let started := T.start s r.ctx "serviceB_HttpHandler" []
  let span := started.1
  let ctx : Context := some span
  let sum := add T started.2 ctx 42 1813
  let answer := sum.1
  let w1 := w.headerAdd "SVC-RESPONSE" (formatInt answer)
  let w2 := w1.write ("Hi from ServiceB! The answer is: " ++ formatInt answer)
  { world := T.endSpan sum.2 span, w := w2, outcome := Outcome.returned }

/-- What `serviceA_HttpHandler` uses besides the request: the global tracer, the
constructor `http.NewRequestWithContext`, and the client call `cli.Do` (an
`http.Client` over the otelhttp transport), which acts on the world. -/
structure Env (σ : Type) where
  tracer : Tracer σ
  newRequestWithContext : Context → String → String → Except GoError Request
  clientDo : σ → Request → Except GoError HttpResponse × σ

/-- The function `serviceA_HttpHandler` of main.go. The deferred `span.End()` runs
on return and on panic alike. -/
def serviceA_HttpHandler {σ : Type} (E : Env σ) (s : σ) (w : ResponseWriter)
    (r : Request) : HandlerRun σ :=
  let started := E.tracer.start s r.ctx "serviceA_HttpHandler" []
  let span := started.1
  let ctx : Context := some span
  match E.newRequestWithContext ctx "GET" "http://localhost:8082/svcB" with
  | Except.error err =>
    { world := E.tracer.endSpan started.2 span, w := w, outcome := Outcome.panicked err }
  | Except.ok req =>
    match E.clientDo started.2 req with
    | (Except.error err, s2) =>
      { world := E.tracer.endSpan s2 span, w := w, outcome := Outcome.panicked err }
    | (Except.ok resp, s2) =>
      { world := E.tracer.endSpan s2 span,
        w := w.headerAdd "SVC-RESPONSE" (Header.Get resp.header "SVC-RESPONSE"),
        outcome := Outcome.returned }

/-- What `main` needs from the operating system for its two servers.
`listenAndServe port` is the result of `server.ListenAndServe()` on that port: `none`
when the server keeps serving and never returns, `some err` when it returns. When
both servers fail, `goroutineFirst` tells whether the panic of the `serviceA` goroutine
ends the process before the panic of `serviceB` in `main` does. -/
structure ServerEnv where
  listenAndServe : Nat → Option GoError
  goroutineFirst : Bool

/-- A step of `main` in program order: the statement `go serviceA(ctx, 8081)`, the
call `serviceB(ctx, 8082)`, and the deferred `tracerProvider.Shutdown(ctx)`. -/
inductive MainEvent where
  | goServiceA (port : Nat) : MainEvent
  | serviceB (port : Nat) : MainEvent
  | shutdownProvider : MainEvent
deriving DecidableEq, Repr

/-- How `main` ends: it panics, or it stays blocked inside `serviceB`, serving. -/
inductive MainOutcome where
  | panicked (err : GoError) : MainOutcome
  | serving : MainOutcome
deriving DecidableEq, Repr

/-! ## tracing.go -/

/-- File contents. -/
abbrev Bytes := String

/-- A loaded client certificate with its private key (`tls.Certificate`). -/
structure Certificate where
  certPEM : Bytes
  keyPEM : Bytes
deriving DecidableEq, Repr

/-- A parsed X.509 certificate of a root bundle. -/
structure X509Cert where
  der : Bytes
deriving DecidableEq, Repr

/-- A set of trusted roots (`x509.CertPool`). -/
abbrev CertPool := List X509Cert

/-- The fields of `tls.Config` that `getTls` sets. -/
structure TlsConfig where
  rootCAs : CertPool
  certificates : List Certificate
  insecureSkipVerify : Bool
deriving DecidableEq, Repr

/-- The file system and the parsers behind `getTls`: `readFile` is `os.ReadFile`,
`x509KeyPair` is `tls.X509KeyPair` on the two PEM blocks, and `pemCertificates` gives
the certificates that can be parsed out of the CERTIFICATE blocks of a PEM text. -/
structure CredEnv where
  readFile : String → Except GoError Bytes
  x509KeyPair : Bytes → Bytes → Except GoError Certificate
  pemCertificates : Bytes → List X509Cert

/-- Modelled from the spec: `tls.LoadX509KeyPair` is standard-library code not under
src/. It reads the certificate file, then the key file, then parses the pair; the
first failure is returned. -/
def LoadX509KeyPair (E : CredEnv) (certFile keyFile : String) : Except GoError Certificate :=
  match E.readFile certFile with
  | Except.error err => Except.error err
  | Except.ok certPEMBlock =>
    match E.readFile keyFile with
    | Except.error err => Except.error err
    | Except.ok keyPEMBlock => E.x509KeyPair certPEMBlock keyPEMBlock

/-- The empty pool made by `x509.NewCertPool()`. -/
def NewCertPool : CertPool := []

/-- Adding one certificate to a pool; a certificate already present is not added twice. -/
def CertPool.addCert (pool : CertPool) (c : X509Cert) : CertPool :=
  if c ∈ pool then pool else pool ++ [c]

/-- Modelled from the spec: `CertPool.AppendCertsFromPEM` is standard-library code not
under src/. Every certificate that parses is added to the pool; the boolean reports
whether at least one certificate was parsed. -/
def AppendCertsFromPEM (E : CredEnv) (pool : CertPool) (pemCerts : Bytes) : CertPool × Bool :=
  let certs := E.pemCertificates pemCerts
  (certs.foldl CertPool.addCert pool, !certs.isEmpty)

/-- The function `getTls` of tracing.go. The boolean result of `AppendCertsFromPEM`
is discarded, as in the source. -/
def getTls (E : CredEnv) : Except GoError TlsConfig :=
  match LoadX509KeyPair E "./confs/client.crt" "./confs/client.key" with
  | Except.error err => Except.error err
  | Except.ok clientAuth =>
    match E.readFile "./confs/rootCA.crt" with
    | Except.error err => Except.error err
    | Except.ok caCert =>
      let caCertPool := (AppendCertsFromPEM E NewCertPool caCert).1
      Except.ok
        { rootCAs := caCertPool, certificates := [clientAuth], insecureSkipVerify := true }

/-- The three credential inputs are all present, readable and parseable in their
expected formats: the certificate and key files can be read and form a key pair, and
the root bundle can be read and holds at least one parseable PEM certificate. -/
def credentialsUsable (E : CredEnv) : Prop :=
  (∃ kp, LoadX509KeyPair E "./confs/client.crt" "./confs/client.key" = Except.ok kp) ∧
  (∃ ca, E.readFile "./confs/rootCA.crt" = Except.ok ca ∧ E.pemCertificates ca ≠ [])

/-- A span exporter created by `otlptracegrpc.New`: its endpoint and TLS credentials. -/
structure Exporter where
  endpoint : String
  tls : TlsConfig
deriving DecidableEq, Repr

/-- The resource made by `resource.NewWithAttributes`. -/
structure Resource where
  schemaURL : String
  attributes : List KeyValue
deriving DecidableEq, Repr

/-- The sampler expressions of the SDK that the source can build. The fraction of
`TraceIDRatioBased` is kept as the pair numerator, denominator (0.6 is 6 over 10). -/
inductive Sampler where
  | alwaysSample : Sampler
  | neverSample : Sampler
  | traceIDRatioBased (num den : Nat) : Sampler
  | parentBased (root : Sampler) : Sampler
deriving DecidableEq, Repr

/-- A basic text-map propagator. -/
inductive BasePropagator where
  | traceContext : BasePropagator
  | baggage : BasePropagator
deriving DecidableEq, Repr

/-- A composite text-map propagator: the list of its members. -/
abbrev TextMapPropagator := List BasePropagator

/-- The provider made by `trace.NewTracerProvider` from its three options. -/
structure TracerProvider where
  batcher : Exporter
  resource : Resource
  sampler : Sampler
deriving DecidableEq, Repr

/-- The process-wide state that `setupTracing` acts on: the exporters created so far,
the registered global tracer provider and the registered global propagator. -/
structure Globals where
  exporters : List Exporter
  tracerProvider : Option TracerProvider
  propagator : Option TextMapPropagator
deriving DecidableEq, Repr

/-- The state of a process that has not set up tracing. -/
def Globals.initial : Globals :=
  { exporters := [], tracerProvider := none, propagator := none }

/-- What `setupTracing` needs from outside: the credential environment, and whether
`otlptracegrpc.New` fails for a given endpoint and TLS configuration. -/
structure TracingEnv where
  cred : CredEnv
  exporterError : String → TlsConfig → Option GoError

/-- The constant `semconv.SchemaURL` of semconv v1.12.0. -/
def semconvSchemaURL : String := "https://opentelemetry.io/schemas/1.12.0"

/-- The function `setupTracing` of tracing.go. -/
def setupTracing (E : TracingEnv) (g : Globals) (serviceName : String) :
    Except GoError TracerProvider × Globals :=
  match getTls E.cred with
  | Except.error err => (Except.error err, g)
  | Except.ok c =>
    match E.exporterError "localhost:4317" c with
    | some err => (Except.error err, g)
    | none =>
      let exporter : Exporter := { endpoint := "localhost:4317", tls := c }
      let g1 := { g with exporters := g.exporters ++ [exporter] }
      let resource : Resource :=
        { schemaURL := semconvSchemaURL,
          attributes := [KeyValue.string "service.name" serviceName,
            KeyValue.string "some-attribute" "some-value"] }
      let provider : TracerProvider :=
        { batcher := exporter, resource := resource,
          sampler := Sampler.parentBased (Sampler.traceIDRatioBased 6 10) }
      let g2 := { g1 with tracerProvider := some provider }
      let g3 := { g2 with propagator := some [BasePropagator.traceContext] }
      (Except.ok provider, g3)

/-- The run of `main`: the process-wide state at the end, the steps of `main` in
program order (the call of `serviceB` follows the `go` statement directly and is listed
also when the goroutine of `serviceA` ends the process), and how `main` ends. -/
structure MainRun where
  globals : Globals
  events : List MainEvent
  outcome : MainOutcome
deriving DecidableEq, Repr

/-- The function `serviceA` of main.go, as far as `main` depends on it: it registers
`serviceA_HttpHandler` under /svcA, listens on the port, and panics with the error of
`ListenAndServe` when that call returns (`some err`); `none` when it keeps serving. -/
def serviceA (S : ServerEnv) (port : Nat) : Option GoError :=
  S.listenAndServe port

/-- The function `serviceB` of main.go, as far as `main` depends on it: it registers
`serviceB_HttpHandler` under /svcB, listens on the port, and panics with the error of
`ListenAndServe` when that call returns (`some err`); `none` when it keeps serving. -/
def serviceB (S : ServerEnv) (port : Nat) : Option GoError :=
  S.listenAndServe port

/-- The function `main` of main.go. When `setupTracing` fails, `main` panics at once.
Otherwise it starts `serviceA` on port 8081 in a goroutine and calls `serviceB` on port
8082. While both keep serving, `main` stays blocked in `serviceB`. A panic of `serviceB`
unwinds `main`: the deferred `tracerProvider.Shutdown` runs and the process ends with
that panic. A panic of `serviceA` in its goroutine ends the process with that panic
at once, without running the deferred call of `main`. -/
def main (E : TracingEnv) (S : ServerEnv) : MainRun :=
  match setupTracing E Globals.initial serviceName with
  | (Except.error err, g) => { globals := g, events := [], outcome := MainOutcome.panicked err }
  | (Except.ok _, g) =>
    let unwound (err : GoError) : MainRun :=
      { globals := g,
        events := [MainEvent.goServiceA 8081, MainEvent.serviceB 8082,
          MainEvent.shutdownProvider],
        outcome := MainOutcome.panicked err }
    let killed (err : GoError) : MainRun :=
      { globals := g, events := [MainEvent.goServiceA 8081, MainEvent.serviceB 8082],
        outcome := MainOutcome.panicked err }
    match serviceA S 8081, serviceB S 8082 with
    | none, none =>
      { globals := g, events := [MainEvent.goServiceA 8081, MainEvent.serviceB 8082],
        outcome := MainOutcome.serving }
    | none, some errB => unwound errB
    | some errA, none => killed errA
    | some errA, some errB => if S.goroutineFirst then killed errA else unwound errB

/-! ## The sampler installed by `setupTracing` (OpenTelemetry SDK) -/

/-- The input of a sampling decision: the parent context of the new span and the
trace id the new span will carry. -/
structure SamplingParameters where
  parentContext : Context
  traceID : Fin (2 ^ 128)
deriving DecidableEq, Repr

/-- Modelled from the spec: the samplers `ParentBased` and `TraceIDRatioBased` belong
to the OpenTelemetry SDK, a dependency whose code is not under src/. A parent-based
sampler honours the sampled flag of a valid parent and asks its root sampler only
when there is no valid parent; a ratio sampler decides from the trace id alone, so
that the given fraction of trace ids is sampled (the threshold is taken as the exact
fraction of 2^63, compared with the low 64 bits of the trace id shifted right by one). -/
def shouldSample : Sampler → SamplingParameters → Bool
  | Sampler.alwaysSample, _ => true
  | Sampler.neverSample, _ => false
  | Sampler.traceIDRatioBased num den, p =>
    decide ((p.traceID.val % 2 ^ 64 / 2) * den < num * 2 ^ 63)
  | Sampler.parentBased root, p =>
    match p.parentContext with
    | some psc => if psc.isValid then psc.sampled else shouldSample root p
    | none => shouldSample root p

/-- The ids an id generator hands out for one new span: a span id, and a trace id that
is used only when the span starts a new trace. -/
structure FreshIds where
  traceID : Fin (2 ^ 128)
  spanID : Fin (2 ^ 64)
deriving DecidableEq, Repr

/-- Modelled from the spec: span creation belongs to the OpenTelemetry SDK, a
dependency whose code is not under src/. With a valid parent the new span inherits the
trace id and trace state of the parent; without one it starts a new trace. The sampler
decides the sampled flag in both cases. -/
def startSpan (sampler : Sampler) (parent : Context) (fresh : FreshIds) : SpanContext :=
  let inherited : Option SpanContext :=
    match parent with
    | some p => if p.isValid then some p else none
    | none => none
  match inherited with
  | some p =>
    { traceID := p.traceID, spanID := fresh.spanID,
      sampled := shouldSample sampler { parentContext := parent, traceID := p.traceID },
      traceState := p.traceState, remote := false }
  | none =>
    { traceID := fresh.traceID, spanID := fresh.spanID,
      sampled := shouldSample sampler { parentContext := parent, traceID := fresh.traceID },
      traceState := "", remote := false }

/-! ## The propagator installed by `setupTracing` (W3C trace context) -/

/-- The transport-level carrier of a trace context: header fields by name. -/
abbrev Carrier := List (String × String)

/-- The value of a carrier field, the empty string when the field is absent. -/
def Carrier.get : Carrier → String → String
  | [], _ => ""
  | (k1, v) :: rest, k => if k1 = k then v else Carrier.get rest k

/-- Setting a carrier field replaces its value or adds the field. -/
def Carrier.set : Carrier → String → String → Carrier
  | [], k, v => [(k, v)]
  | (k1, v1) :: rest, k, v =>
    if k1 = k then (k1, v) :: rest else (k1, v1) :: Carrier.set rest k v

/-- The lower-case hexadecimal digit of a value below sixteen. -/
def hexDigit (d : Nat) : Char :=
  if d < 10 then Char.ofNat (48 + d) else Char.ofNat (87 + d)

/-- The value of a lower-case hexadecimal digit; upper-case digits are refused. -/
def hexValue (c : Char) : Option Nat :=
  if 48 ≤ c.toNat ∧ c.toNat ≤ 57 then some (c.toNat - 48)
  else if 97 ≤ c.toNat ∧ c.toNat ≤ 102 then some (c.toNat - 87)
  else none

/-- The number `n` written with exactly `w` hexadecimal digits, most significant first
(digits beyond the width are dropped). -/
def hexEncode : Nat → Nat → List Char
  | 0, _ => []
  | w + 1, n => hexEncode w (n / 16) ++ [hexDigit (n % 16)]

/-- Reading hexadecimal digits onto an accumulator; `none` at the first non-digit. -/
def hexDecodeFrom : Nat → List Char → Option Nat
  | acc, [] => some acc
  | acc, c :: cs =>
    match hexValue c with
    | none => none
    | some d => hexDecodeFrom (acc * 16 + d) cs

/-- The text before the first hyphen and the text after it (`strings.Cut(h, "-")`);
without a hyphen the whole text comes first and nothing is left. -/
def cutDash : List Char → List Char × List Char
  | [] => ([], [])
  | c :: cs =>
    if c = '-' then ([], cs)
    else
      let r := cutDash cs
      (c :: r.1, r.2)

/-- One hyphen-separated part of the traceparent field: it must have exactly `n`
lower-case hexadecimal digits. The result is its value and the remaining text. -/
def extractPart (n : Nat) (h : List Char) : Option (Nat × List Char) :=
  let r := cutDash h
  if r.1.length ≠ n then none
  else
    match hexDecodeFrom 0 r.1 with
    | none => none
    | some v => some (v, r.2)

/-- The text of the traceparent field for a span context:
version 00, the trace id in 32 digits, the span id in 16 digits, the flags in 2 digits. -/
def traceparentField (sc : SpanContext) : List Char :=
  hexEncode 2 0 ++ ['-'] ++ hexEncode 32 sc.traceID.val ++ ['-'] ++
    hexEncode 16 sc.spanID.val ++ ['-'] ++ hexEncode 2 (if sc.sampled then 1 else 0)

/-- Modelled from the spec: the propagator `propagation.TraceContext` belongs to the
OpenTelemetry library, a dependency whose code is not under src/. `inject` writes
nothing for an invalid context; otherwise it writes the trace state into the field
tracestate (when not empty) and the composite field traceparent. -/
def inject (sc : SpanContext) : Carrier :=
  if sc.isValid then
    let c1 : Carrier := if sc.traceState = "" then [] else Carrier.set [] "tracestate" sc.traceState
    Carrier.set c1 "traceparent" (String.mk (traceparentField sc))
  else []

/-- Modelled from the spec: the propagator `propagation.TraceContext` belongs to the
OpenTelemetry library, a dependency whose code is not under src/. `extract` parses the
field traceparent back into a span context marked remote; a missing or malformed
field gives `none`. -/
def extract (carrier : Carrier) : Option SpanContext :=
  let h := (Carrier.get carrier "traceparent").toList
  if h = [] then none
  else
    match extractPart 2 h with
    | none => none
    | some (version, h1) =>
      if version > 254 then none
      else
        match extractPart 32 h1 with
        | none => none
        | some (tid, h2) =>
          match extractPart 16 h2 with
          | none => none
          | some (sid, h3) =>
            match extractPart 2 h3 with
            | none => none
            | some (opts, h4) =>
              if version = 0 ∧ (h4 ≠ [] ∨ opts > 2) then none
              else
                let sc : SpanContext :=
                  { traceID := ⟨tid % 2 ^ 128, Nat.mod_lt _ (by decide)⟩,
                    spanID := ⟨sid % 2 ^ 64, Nat.mod_lt _ (by decide)⟩,
                    sampled := decide (opts % 2 = 1),
                    traceState := Carrier.get carrier "tracestate",
                    remote := true }
                if sc.isValid then some sc else none

/-- One more span of a trace: its parent is the span at `parentIndex`; when
`crossProcess` holds the parent context reaches the new span through `inject` and
`extract` (a call to another process), otherwise directly. -/
structure SpanStep where
  parentIndex : Nat
  crossProcess : Bool
  fresh : FreshIds
deriving DecidableEq, Repr

/-- Adding the span of one step to the spans of a trace. A step that names no
existing span adds nothing. -/
def growTrace (sampler : Sampler) (spans : List SpanContext) (st : SpanStep) :
    List SpanContext :=
  match spans.get? st.parentIndex with
  | none => spans
  | some p =>
    let parentCtx : Context := if st.crossProcess then extract (inject p) else some p
    spans ++ [startSpan sampler parentCtx st.fresh]

/-- All spans of the trace that begins with a root span and grows by the given steps. -/
def buildTrace (sampler : Sampler) (rootIds : FreshIds) (steps : List SpanStep) :
    List SpanContext :=
  steps.foldl (growTrace sampler) [startSpan sampler none rootIds]

/-! ## The client of `serviceA_HttpHandler`: `http.Client` over the otelhttp transport -/

/-- A round tripper (`http.RoundTripper`) acting on the world. -/
abbrev RoundTripper (σ : Type) := σ → Request → Except GoError HttpResponse × σ

/-- The client span that the otelhttp transport starts for an outbound request: its
name is "HTTP " followed by the method, its parent is the context of the request. -/
def clientSpanStart {σ : Type} (T : Tracer σ) (s : σ) (r : Request) : SpanContext × σ :=
  T.start s r.ctx ("HTTP " ++ r.method) []

/-- The request that the otelhttp transport hands to the underlying transport: it
carries the client span in its context and the injected trace fields in its header. -/
def outboundRequest (span : SpanContext) (r : Request) : Request :=
  { r with
    ctx := some span
    header := (inject span).foldl (fun h kv => Header.Set h kv.1 kv.2) r.header }

/-- Modelled from the spec: `otelhttp.NewTransport` is library code not under src/
(main.go builds the client of `serviceA_HttpHandler` over it). Its `RoundTrip` starts
a client span, injects the trace context into the request and calls the underlying
transport. When that call fails, the client span is set to error status with the text
of the error and then ended, and the error is returned. When it succeeds, the status
of the span follows the HTTP status code and the span stays open until the response
body is closed. Span attributes and recorded error events are not followed. -/
def otelhttpRoundTrip {σ : Type} (T : Tracer σ) (base : RoundTripper σ) : RoundTripper σ :=
  fun s r =>
    let started := clientSpanStart T s r
    let span := started.1
    match base started.2 (outboundRequest span r) with
    | (Except.error err, s2) =>
      (Except.error err, T.endSpan (T.setStatus s2 span StatusCode.error err.msg) span)
    | (Except.ok resp, s2) =>
      (Except.ok resp,
        T.setStatus s2 span
          (if 400 ≤ resp.status then StatusCode.error else StatusCode.unset) "")

/-- The operation name of a `*url.Error` for a method: its first letter followed by the
rest in lower case ("Get" for GET, and for the empty method). -/
def urlErrorOp (method : String) : String :=
  match method.toList with
  | [] => "Get"
  | c :: cs => String.mk (c :: cs.map Char.toLower)

/-- The `*url.Error` in which `http.Client.Do` wraps an error of its transport; its text
is the operation, the quoted URL, a colon and the text of the wrapped error. -/
def urlError (method url : String) (err : GoError) : GoError :=
  { msg := urlErrorOp method ++ " " ++ String.mk [Char.ofNat 34] ++ url ++
      String.mk [Char.ofNat 34] ++ ": " ++ err.msg }

/-- Modelled from the spec: `http.Client.Do` is standard-library code not under src/.
It sends the request through the transport of the client and wraps an error of the
transport in a `*url.Error`. -/
def httpClientDo {σ : Type} (transport : RoundTripper σ) : RoundTripper σ :=
  fun s r =>
    match transport s r with
    | (Except.error err, s2) => (Except.error (urlError r.method r.url err), s2)
    | (Except.ok resp, s2) => (Except.ok resp, s2)

/-- The world of `serviceA_HttpHandler` as main.go builds it: the client `cli` is an
`http.Client` whose transport is `otelhttp.NewTransport(http.DefaultTransport)`;
`base` stands for `http.DefaultTransport`, the network. -/
def otelhttpEnv {σ : Type} (T : Tracer σ)
    (newRequest : Context → String → String → Except GoError Request)
    (base : RoundTripper σ) : Env σ :=
  { tracer := T
    newRequestWithContext := newRequest
    clientDo := httpClientDo (otelhttpRoundTrip T base) }

/-! ## Concrete worlds, used to evaluate the embedding -/

/-- A call made on the tracing API, as a recording tracer logs it. -/
inductive TraceCall where
  | start (parent : Context) (name : String) (attrs : List KeyValue) (span : SpanContext) :
    TraceCall
  | setStatus (span : SpanContext) (code : StatusCode) (description : String) : TraceCall
  | endSpan (span : SpanContext) : TraceCall
deriving DecidableEq, Repr

/-- The ids handed out for the `n`-th call: both are `n + 1`. -/
def freshIdsAt (n : Nat) : FreshIds :=
  { traceID := ⟨(n + 1) % 2 ^ 128, Nat.mod_lt _ (by decide)⟩,
    spanID := ⟨(n + 1) % 2 ^ 64, Nat.mod_lt _ (by decide)⟩ }

/-- A tracer whose world is the log of the calls made on it; spans are created by
`startSpan` under the given sampler. -/
def recordingTracer (sampler : Sampler) : Tracer (List TraceCall) :=
  { start := fun log ctx name attrs =>
      let span := startSpan sampler ctx (freshIdsAt log.length)
      (span, log ++ [TraceCall.start ctx name attrs span])
    setStatus := fun log span code description =>
      log ++ [TraceCall.setStatus span code description]
    endSpan := fun log span => log ++ [TraceCall.endSpan span] }

/-- The sampler that `setupTracing` installs. -/
def installedSampler : Sampler := Sampler.parentBased (Sampler.traceIDRatioBased 6 10)

/-- A sampled span context with a trace state. -/
def sampleSpanContext : SpanContext :=
  { traceID := 0x4bf92f3577b34da6a3ce929d0e0e4736
    spanID := 0x00f067aa0ba902b7
    sampled := true
    traceState := "vendor=x"
    remote := false }

/-- The ids of the root span of a sample trace. -/
def sampleRootIds : FreshIds :=
  { traceID := 0x4bf92f3577b34da61234567890abcdef, spanID := 1 }

/-- Three more spans of the sample trace: a child of the root, a child of that child in
another process, and a second child of the root in another process. -/
def sampleSteps : List SpanStep :=
  [{ parentIndex := 0, crossProcess := false, fresh := { traceID := 11, spanID := 2 } },
   { parentIndex := 1, crossProcess := true, fresh := { traceID := 12, spanID := 3 } },
   { parentIndex := 0, crossProcess := true, fresh := { traceID := 13, spanID := 4 } }]

/-- A request constructor that always succeeds. -/
def plainNewRequest (ctx : Context) (method url : String) : Except GoError Request :=
  Except.ok { method := method, url := url, header := [], ctx := ctx }

/-- An inbound request `GET /svcA` without trace headers. -/
def sampleRequest : Request :=
  { method := "GET", url := "/svcA", header := [], ctx := none }

/-- The error of a refused connection to service B. -/
def connectionRefused : GoError :=
  { msg := "dial tcp 127.0.0.1:8082: connect: connection refused" }

/-- The network when service B is unreachable: every round trip is refused. -/
def refusingTransport : RoundTripper (List TraceCall) :=
  fun log _ => (Except.error connectionRefused, log)

/-- A world in which service B is unreachable: the client of main.go over a network
that refuses every connection, with a recording tracer. -/
def unreachableEnv : Env (List TraceCall) :=
  otelhttpEnv (recordingTracer installedSampler) plainNewRequest refusingTransport

/-- The span of `serviceA_HttpHandler` in the unreachable world, started on the empty log. -/
def unreachableHandlerSpan : SpanContext :=
  startSpan installedSampler none (freshIdsAt 0)

/-- The client span of the failed call in the unreachable world. -/
def unreachableClientSpan : SpanContext :=
  startSpan installedSampler (some unreachableHandlerSpan) (freshIdsAt 1)

/-- The error that `cli.Do` returns in the unreachable world. -/
def unreachableDoError : GoError :=
  urlError "GET" "http://localhost:8082/svcB" connectionRefused

/-- The tracing calls of `serviceA_HttpHandler` in the unreachable world. -/
def unreachableLog : List TraceCall :=
  [TraceCall.start none "serviceA_HttpHandler" [] unreachableHandlerSpan,
   TraceCall.start (some unreachableHandlerSpan) "HTTP GET" [] unreachableClientSpan,
   TraceCall.setStatus unreachableClientSpan StatusCode.error connectionRefused.msg,
   TraceCall.endSpan unreachableClientSpan,
   TraceCall.endSpan unreachableHandlerSpan]

/-- A world in which the downstream of service A is `serviceB_HttpHandler` itself,
served in the same world. -/
def loopbackEnv {σ : Type} (T : Tracer σ) : Env σ :=
  { tracer := T
    newRequestWithContext := plainNewRequest
    clientDo := fun s req =>
      match serve (serviceB_HttpHandler T) s req with
      | (ClientVisible.response resp, s1) => (Except.ok resp, s1)
      | (ClientVisible.connectionAborted, s1) => (Except.error { msg := "EOF" }, s1) }

/-- The error of a missing file. -/
def fileNotFound (path : String) : GoError :=
  { msg := "open " ++ path ++ ": no such file or directory" }

/-- A parser for key pairs that accepts one certificate text and one key text. -/
def toyKeyPair (certPEM keyPEM : Bytes) : Except GoError Certificate :=
  if certPEM = "CLIENT CERTIFICATE" ∧ keyPEM = "CLIENT KEY" then
    Except.ok { certPEM := certPEM, keyPEM := keyPEM }
  else Except.error { msg := "tls: failed to find any PEM data in certificate input" }

/-- A PEM reader that finds one certificate in one bundle text and none elsewhere. -/
def toyPemCertificates (pem : Bytes) : List X509Cert :=
  if pem = "ROOT CERTIFICATE" then [{ der := "root" }] else []

/-- A file system holding the three credential files, with the given root bundle. -/
def credFiles (rootBundle : Bytes) (path : String) : Except GoError Bytes :=
  if path = "./confs/client.crt" then Except.ok "CLIENT CERTIFICATE"
  else if path = "./confs/client.key" then Except.ok "CLIENT KEY"
  else if path = "./confs/rootCA.crt" then Except.ok rootBundle
  else Except.error (fileNotFound path)

/-- Three well-formed credential files. -/
def goodCredEnv : CredEnv :=
  { readFile := credFiles "ROOT CERTIFICATE"
    x509KeyPair := toyKeyPair
    pemCertificates := toyPemCertificates }

/-- The configuration that `getTls` builds from the well-formed credentials. -/
def goodTlsConfig : TlsConfig :=
  { rootCAs := [{ der := "root" }]
    certificates := [{ certPEM := "CLIENT CERTIFICATE", keyPEM := "CLIENT KEY" }]
    insecureSkipVerify := true }

/-- A root bundle file that exists but holds no parseable PEM certificate. -/
def garbageRootCredEnv : CredEnv :=
  { readFile := credFiles "not a certificate"
    x509KeyPair := toyKeyPair
    pemCertificates := toyPemCertificates }

/-- A file system without any credential file. -/
def missingCertCredEnv : CredEnv :=
  { readFile := fun path => Except.error (fileNotFound path)
    x509KeyPair := toyKeyPair
    pemCertificates := toyPemCertificates }

/-- A tracing environment over the missing credentials. -/
def missingCertTracingEnv : TracingEnv :=
  { cred := missingCertCredEnv, exporterError := fun _ _ => none }

/-- A tracing environment over the well-formed credentials. -/
def goodTracingEnv : TracingEnv :=
  { cred := goodCredEnv, exporterError := fun _ _ => none }

/-- Servers that keep serving. -/
def servingForever : ServerEnv :=
  { listenAndServe := fun _ => none, goroutineFirst := false }

/-! ## Lemmas on headers and on `int64` -/

theorem Header.lookup_append_same (h : Header) (k v : String) :
    Header.lookup (Header.append h k v) k = Header.lookup h k ++ [v] := by
  induction h with
  | nil => simp [Header.append, Header.lookup]
  | cons e rest ih =>
    obtain ⟨k1, vs⟩ := e
    by_cases hk : k1 = k
    · simp [Header.append, Header.lookup, hk]
    · simp [Header.append, Header.lookup, hk, ih]

theorem Header.lookup_append_other (h : Header) (k v k2 : String) (hne : k2 ≠ k) :
    Header.lookup (Header.append h k v) k2 = Header.lookup h k2 := by
  induction h with
  | nil => simp [Header.append, Header.lookup, Ne.symm hne]
  | cons e rest ih =>
    obtain ⟨k1, vs⟩ := e
    by_cases hk : k1 = k
    · subst hk
      simp [Header.append, Header.lookup, Ne.symm hne]
    · by_cases hk2 : k1 = k2
      · subst hk2
        simp [Header.append, Header.lookup, hk]
      · simp [Header.append, Header.lookup, hk, hk2, ih]

theorem canonical_svc_response : CanonicalMIMEHeaderKey "SVC-RESPONSE" = "Svc-Response" := by
  decide

theorem formatInt_1855 : formatInt 1855 = "1855" := by decide

theorem wrapInt64_eq_asInt64 (z : Int) : wrapInt64 z = asInt64 (z % 2 ^ 64) := by
  unfold wrapInt64 asInt64
  split <;> omega

theorem wrapInt64_range (z : Int) : minInt64 ≤ wrapInt64 z ∧ wrapInt64 z ≤ maxInt64 := by
  unfold wrapInt64 minInt64 maxInt64
  omega

theorem wrapInt64_of_range (z : Int) (h : minInt64 ≤ z ∧ z ≤ maxInt64) : wrapInt64 z = z := by
  unfold wrapInt64
  unfold minInt64 maxInt64 at h
  omega

theorem add_value {σ : Type} (T : Tracer σ) (s : σ) (ctx : Context) (x y : Int) :
    (add T s ctx x y).1 = wrapInt64 (x + y) := rfl

theorem add_42_1813 {σ : Type} (T : Tracer σ) (s : σ) (ctx : Context) :
    (add T s ctx 42 1813).1 = 1855 := by
  rw [add_value]
  decide

theorem serviceB_writer {σ : Type} (T : Tracer σ) (s : σ) (w : ResponseWriter) (r : Request) :
    (serviceB_HttpHandler T s w r).w =
      (w.headerAdd "SVC-RESPONSE" "1855").write "Hi from ServiceB! The answer is: 1855" := by
  simp only [serviceB_HttpHandler, add_42_1813, formatInt_1855]
  rfl

theorem serve_serviceB {σ : Type} (T : Tracer σ) (s : σ) (r : Request) :
    (serve (serviceB_HttpHandler T) s r).1 =
      ClientVisible.response
        { status := 200, header := [("Svc-Response", ["1855"])],
          body := "Hi from ServiceB! The answer is: 1855" } := by
  have hout : (serviceB_HttpHandler T s ResponseWriter.fresh r).outcome = Outcome.returned := rfl
  simp only [serve, hout, serviceB_writer]
  decide

/-! ## Claims on main.go -/

/-- C1: for every inbound request and every tracer, `serviceB_HttpHandler` returns,
adds the header SVC-RESPONSE with the decimal text of `add(42, 1813)`, which is
"1855", and writes the body "Hi from ServiceB! The answer is: 1855"; served on a fresh
response writer, the client receives status 200 with exactly that header and body. -/
theorem serviceB_response_is_1855 {σ : Type} (T : Tracer σ) (s : σ) (w : ResponseWriter)
    (r : Request) :
    formatInt (add T (T.start s r.ctx "serviceB_HttpHandler" []).2
      (some (T.start s r.ctx "serviceB_HttpHandler" []).1) 42 1813).1 = "1855" ∧
    (serviceB_HttpHandler T s w r).outcome = Outcome.returned ∧
    (serviceB_HttpHandler T s w r).w.header = Header.Add w.header "SVC-RESPONSE" "1855" ∧
    Header.Values (serviceB_HttpHandler T s w r).w.header "SVC-RESPONSE" =
      Header.Values w.header "SVC-RESPONSE" ++ ["1855"] ∧
    (serviceB_HttpHandler T s w r).w.body =
      w.body ++ "Hi from ServiceB! The answer is: 1855" ∧
    (serve (serviceB_HttpHandler T) s r).1 =
      ClientVisible.response
        { status := 200, header := [("Svc-Response", ["1855"])],
          body := "Hi from ServiceB! The answer is: 1855" } ∧
    Header.Get [("Svc-Response", ["1855"])] "SVC-RESPONSE" = "1855" := by
  have hfmt : ∀ (t : σ) (c : Context), formatInt (add T t c 42 1813).1 = "1855" := by
    intro t c
    rw [add_42_1813, formatInt_1855]
  refine ⟨hfmt _ _, rfl, ?_, ?_, ?_, serve_serviceB T s r, by decide⟩
  · rw [serviceB_writer]
    simp only [ResponseWriter.write, ResponseWriter.writeHeader, ResponseWriter.headerAdd]
    split <;> rfl
  · rw [serviceB_writer]
    simp only [ResponseWriter.write, ResponseWriter.writeHeader, ResponseWriter.headerAdd]
    split <;> simp [Header.Values, Header.Add, Header.lookup_append_same]
  · rw [serviceB_writer]
    simp only [ResponseWriter.write, ResponseWriter.writeHeader, ResponseWriter.headerAdd]
    split <;> rfl

/-- C9: the business response of `serviceB_HttpHandler` does not depend on tracing.
For any two tracers (any sampling decisions), any two world states and any two inbound
requests, whatever their headers (traceparent absent, malformed or valid) and whatever
trace context they carry, the handler returns without panicking and leaves the same
response writer; the client receives the same response. -/
theorem serviceB_response_independent_of_tracing {σ τ : Type} (T1 : Tracer σ) (T2 : Tracer τ)
    (s1 : σ) (s2 : τ) (w : ResponseWriter) (r1 r2 : Request) :
    (serviceB_HttpHandler T1 s1 w r1).outcome = Outcome.returned ∧
    (serviceB_HttpHandler T2 s2 w r2).outcome = Outcome.returned ∧
    (serviceB_HttpHandler T1 s1 w r1).w = (serviceB_HttpHandler T2 s2 w r2).w ∧
    Header.Get (serviceB_HttpHandler T1 s1 w r1).w.header "SVC-RESPONSE" =
      Header.Get (serviceB_HttpHandler T2 s2 w r2).w.header "SVC-RESPONSE" ∧
    (serviceB_HttpHandler T1 s1 w r1).w.body = (serviceB_HttpHandler T2 s2 w r2).w.body ∧
    (serve (serviceB_HttpHandler T1) s1 r1).1 = (serve (serviceB_HttpHandler T2) s2 r2).1 := by
  have hw : (serviceB_HttpHandler T1 s1 w r1).w = (serviceB_HttpHandler T2 s2 w r2).w := by
    rw [serviceB_writer, serviceB_writer]
  refine ⟨rfl, rfl, hw, by rw [hw], by rw [hw], ?_⟩
  rw [serve_serviceB, serve_serviceB]

/-- C10: for all integers `x` and `y` (in particular all `int64` values), every tracer,
world and context, `add` returns the sum wrapped to 64 bits and read as an `int64`: the
result lies in the `int64` range, equals the `int64` reading of `(x + y) mod 2^64`, and
is `x + y` itself when that fits. The function is total, commutative in `x` and `y`, and
its result is the same under any other tracer, world and context. -/
theorem add_is_wrapped_sum {σ : Type} (T : Tracer σ) (s : σ) (ctx : Context) (x y : Int) :
    minInt64 ≤ (add T s ctx x y).1 ∧ (add T s ctx x y).1 ≤ maxInt64 ∧
    (add T s ctx x y).1 = asInt64 ((x + y) % 2 ^ 64) ∧
    ((add T s ctx x y).1 - (x + y)) % 2 ^ 64 = 0 ∧
    (minInt64 ≤ x + y ∧ x + y ≤ maxInt64 → (add T s ctx x y).1 = x + y) ∧
    (add T s ctx y x).1 = (add T s ctx x y).1 ∧
    (∀ (τ : Type) (T2 : Tracer τ) (s2 : τ) (ctx2 : Context),
      (add T2 s2 ctx2 x y).1 = (add T s ctx x y).1) := by
  refine ⟨(wrapInt64_range _).1, (wrapInt64_range _).2, wrapInt64_eq_asInt64 _, ?_,
    fun h => wrapInt64_of_range _ h, ?_, fun _ _ _ _ => rfl⟩
  · rw [add_value]
    unfold wrapInt64
    omega
  · rw [add_value, add_value, Int.add_comm]

/-- Witness for C10: 42 + 1813 fits, so `add` returns 1855; and the largest `int64`
plus one wraps to the smallest. -/
theorem add_is_wrapped_sum_witness :
    (add (recordingTracer installedSampler) [] none 42 1813).1 = 42 + 1813 ∧
    (add (recordingTracer installedSampler) [] none maxInt64 1).1 = minInt64 :=
  ⟨(add_is_wrapped_sum (recordingTracer installedSampler) [] none 42 1813).2.2.2.2.1
      (by decide),
    by decide⟩

/-- C2: when the request to service B is built and the downstream call succeeds with a
response `resp`, `serviceA_HttpHandler` returns and adds exactly one value under
SVC-RESPONSE, namely `resp.Header.Get("SVC-RESPONSE")`, which is the first SVC-RESPONSE
value of `resp` when there is one; no other header key changes, and on a fresh response
writer the client receives status 200 with that single header. With
`serviceB_HttpHandler` as the downstream, the client sees SVC-RESPONSE: 1855. -/
theorem serviceA_echoes_downstream_header {σ : Type} (E : Env σ) (s : σ) (w : ResponseWriter)
    (r req : Request) (resp : HttpResponse) (s2 : σ)
    (hreq : E.newRequestWithContext (some (E.tracer.start s r.ctx "serviceA_HttpHandler" []).1)
      "GET" "http://localhost:8082/svcB" = Except.ok req)
    (hdo : E.clientDo (E.tracer.start s r.ctx "serviceA_HttpHandler" []).2 req
      = (Except.ok resp, s2)) :
    (serviceA_HttpHandler E s w r).outcome = Outcome.returned ∧
    Header.Values (serviceA_HttpHandler E s w r).w.header "SVC-RESPONSE" =
      Header.Values w.header "SVC-RESPONSE" ++ [Header.Get resp.header "SVC-RESPONSE"] ∧
    (∀ v vs, Header.Values resp.header "SVC-RESPONSE" = v :: vs →
      Header.Get resp.header "SVC-RESPONSE" = v) ∧
    (∀ k, k ≠ "Svc-Response" →
      Header.lookup (serviceA_HttpHandler E s w r).w.header k = Header.lookup w.header k) ∧
    (serve (serviceA_HttpHandler E) s r).1 =
      ClientVisible.response
        { status := 200,
          header := [("Svc-Response", [Header.Get resp.header "SVC-RESPONSE"])],
          body := "" } ∧
    (∀ (τ : Type) (T : Tracer τ) (t : τ) (r2 : Request),
      (serve (serviceA_HttpHandler (loopbackEnv T)) t r2).1 =
        ClientVisible.response
          { status := 200, header := [("Svc-Response", ["1855"])], body := "" }) := by
  have hrun : ∀ w2 : ResponseWriter, serviceA_HttpHandler E s w2 r =
      { world := E.tracer.endSpan s2 (E.tracer.start s r.ctx "serviceA_HttpHandler" []).1,
        w := w2.headerAdd "SVC-RESPONSE" (Header.Get resp.header "SVC-RESPONSE"),
        outcome := Outcome.returned } := by
    intro w2
    simp only [serviceA_HttpHandler, hreq, hdo]
  refine ⟨by rw [hrun], ?_, ?_, ?_, ?_, ?_⟩
  · rw [hrun]
    simp [ResponseWriter.headerAdd, Header.Values, Header.Add, Header.lookup_append_same]
  · intro v vs hv
    simp [Header.Get, hv]
  · intro k hk
    rw [hrun]
    simp only [ResponseWriter.headerAdd, Header.Add, canonical_svc_response]
    exact Header.lookup_append_other _ _ _ _ hk
  · simp only [serve, hrun]
    simp [ResponseWriter.headerAdd, ResponseWriter.writeHeader, ResponseWriter.fresh,
      Header.Add, canonical_svc_response, Header.append]
  · intro τ T t r2
    simp only [serve, serviceA_HttpHandler, loopbackEnv, plainNewRequest]
    simp only [serviceB_HttpHandler]
    simp [ResponseWriter.headerAdd, ResponseWriter.writeHeader, ResponseWriter.fresh,
      ResponseWriter.write, add_42_1813, formatInt_1855, Header.Add, canonical_svc_response,
      Header.append, Header.Get, Header.Values, Header.lookup]

/-- Witness for C2: service A in front of service B, with a recording tracer. -/
theorem serviceA_echoes_downstream_header_witness :
    (serve (serviceA_HttpHandler (loopbackEnv (recordingTracer installedSampler)))
      [] sampleRequest).1 =
      ClientVisible.response
        { status := 200, header := [("Svc-Response", ["1855"])], body := "" } :=
  (serviceA_echoes_downstream_header (loopbackEnv (recordingTracer installedSampler)) []
    ResponseWriter.fresh sampleRequest
    { method := "GET", url := "http://localhost:8082/svcB", header := [],
      ctx := some ((recordingTracer installedSampler).start [] none
        "serviceA_HttpHandler" []).1 }
    { status := 200, header := [("Svc-Response", ["1855"])],
      body := "Hi from ServiceB! The answer is: 1855" }
    (serve (serviceB_HttpHandler (recordingTracer installedSampler))
      ((recordingTracer installedSampler).start [] none "serviceA_HttpHandler" []).2
      { method := "GET", url := "http://localhost:8082/svcB", header := [],
        ctx := some ((recordingTracer installedSampler).start [] none
          "serviceA_HttpHandler" []).1 }).2
    rfl rfl).2.2.2.2.1

/-- C3 fails as stated: with service B unreachable, `serviceA_HttpHandler` does not
return an error response. It panics with the error of `cli.Do`, it has written nothing,
and the client receives no response at all. (The client span of the failed call is set
to error status and ended before the span of the handler ends.) -/
theorem serviceA_unreachable_counterexample :
    (serviceA_HttpHandler unreachableEnv [] ResponseWriter.fresh sampleRequest).outcome
      = Outcome.panicked unreachableDoError ∧
    (serviceA_HttpHandler unreachableEnv [] ResponseWriter.fresh sampleRequest).outcome
      ≠ Outcome.returned ∧
    (serviceA_HttpHandler unreachableEnv [] ResponseWriter.fresh sampleRequest).w
      = ResponseWriter.fresh ∧
    (¬ ∃ resp, (serve (serviceA_HttpHandler unreachableEnv) [] sampleRequest).1
      = ClientVisible.response resp) ∧
    (serviceA_HttpHandler unreachableEnv [] ResponseWriter.fresh sampleRequest).world
      = unreachableLog := by
  refine ⟨rfl, by decide, rfl, ?_, rfl⟩
  rintro ⟨resp, h⟩
  have hs : (serve (serviceA_HttpHandler unreachableEnv) [] sampleRequest).1
      = ClientVisible.connectionAborted := rfl
  rw [hs] at h
  cases h

/-- C3, amended: when the request to service B is built and `cli.Do` (an `http.Client`
over the otelhttp transport) returns an error, `serviceA_HttpHandler` panics with that
error instead of returning an error response: it leaves the response writer untouched
and the client receives no response (the server recovers the panic and drops the
connection). The error is the wrapped error of the underlying transport, and the client
span of the failed call is set to error status before it is ended; after that the
deferred `span.End()` ends the span of the handler. -/
theorem serviceA_downstream_failure_panics {σ : Type} (T : Tracer σ)
    (newRequest : Context → String → String → Except GoError Request)
    (base : RoundTripper σ) (s : σ) (w : ResponseWriter) (r req : Request)
    (e : GoError) (s3 : σ)
    (hreq : newRequest (some (T.start s r.ctx "serviceA_HttpHandler" []).1)
      "GET" "http://localhost:8082/svcB" = Except.ok req)
    (hdo : (otelhttpEnv T newRequest base).clientDo
      (T.start s r.ctx "serviceA_HttpHandler" []).2 req = (Except.error e, s3)) :
    (serviceA_HttpHandler (otelhttpEnv T newRequest base) s w r).outcome
      = Outcome.panicked e ∧
    (serviceA_HttpHandler (otelhttpEnv T newRequest base) s w r).w = w ∧
    (serve (serviceA_HttpHandler (otelhttpEnv T newRequest base)) s r).1
      = ClientVisible.connectionAborted ∧
    (serviceA_HttpHandler (otelhttpEnv T newRequest base) s w r).world =
      T.endSpan s3 (T.start s r.ctx "serviceA_HttpHandler" []).1 ∧
    (∃ (err : GoError) (s2 : σ),
      base (clientSpanStart T (T.start s r.ctx "serviceA_HttpHandler" []).2 req).2
        (outboundRequest
          (clientSpanStart T (T.start s r.ctx "serviceA_HttpHandler" []).2 req).1 req)
        = (Except.error err, s2) ∧
      e = urlError req.method req.url err ∧
      s3 = T.endSpan
        (T.setStatus s2
          (clientSpanStart T (T.start s r.ctx "serviceA_HttpHandler" []).2 req).1
          StatusCode.error err.msg)
        (clientSpanStart T (T.start s r.ctx "serviceA_HttpHandler" []).2 req).1) := by
  have hreq2 : (otelhttpEnv T newRequest base).newRequestWithContext
      (some ((otelhttpEnv T newRequest base).tracer.start s r.ctx "serviceA_HttpHandler" []).1)
      "GET" "http://localhost:8082/svcB" = Except.ok req := hreq
  have hdo2 : (otelhttpEnv T newRequest base).clientDo
      ((otelhttpEnv T newRequest base).tracer.start s r.ctx "serviceA_HttpHandler" []).2 req
      = (Except.error e, s3) := hdo
  have hrun : ∀ w2 : ResponseWriter,
      serviceA_HttpHandler (otelhttpEnv T newRequest base) s w2 r =
      { world := T.endSpan s3 (T.start s r.ctx "serviceA_HttpHandler" []).1,
        w := w2, outcome := Outcome.panicked e } := by
    intro w2
    simp only [serviceA_HttpHandler, hreq2, hdo2]
    rfl
  refine ⟨by rw [hrun], by rw [hrun], by simp only [serve, hrun], by rw [hrun], ?_⟩
  have hdo3 : httpClientDo (otelhttpRoundTrip T base)
      (T.start s r.ctx "serviceA_HttpHandler" []).2 req = (Except.error e, s3) := hdo
  unfold httpClientDo otelhttpRoundTrip at hdo3
  cases hb : base (clientSpanStart T (T.start s r.ctx "serviceA_HttpHandler" []).2 req).2
      (outboundRequest
        (clientSpanStart T (T.start s r.ctx "serviceA_HttpHandler" []).2 req).1 req) with
  | mk res s2 =>
    cases res with
    | error err =>
      simp only [hb, Prod.mk.injEq, Except.error.injEq] at hdo3
      exact ⟨err, s2, rfl, hdo3.1.symm, hdo3.2.symm⟩
    | ok resp =>
      simp only [hb, Prod.mk.injEq] at hdo3
      exact absurd hdo3.1 (by simp)

/-- Witness for the amended C3: service B unreachable, recording tracer. The log shows
the client span set to error status and ended, then the span of the handler ended. -/
theorem serviceA_downstream_failure_panics_witness :
    (serviceA_HttpHandler unreachableEnv [] ResponseWriter.fresh sampleRequest).outcome
      = Outcome.panicked unreachableDoError ∧
    (serve (serviceA_HttpHandler unreachableEnv) [] sampleRequest).1
      = ClientVisible.connectionAborted ∧
    (serviceA_HttpHandler unreachableEnv [] ResponseWriter.fresh sampleRequest).world
      = unreachableLog ∧
    unreachableDoError.msg = String.mk ("Get ".toList ++ [Char.ofNat 34] ++
      "http://localhost:8082/svcB".toList ++ [Char.ofNat 34] ++
      ": dial tcp 127.0.0.1:8082: connect: connection refused".toList) :=
  have h := serviceA_downstream_failure_panics (recordingTracer installedSampler)
    plainNewRequest refusingTransport [] ResponseWriter.fresh sampleRequest
    { method := "GET", url := "http://localhost:8082/svcB", header := [],
      ctx := some unreachableHandlerSpan }
    unreachableDoError
    [TraceCall.start none "serviceA_HttpHandler" [] unreachableHandlerSpan,
     TraceCall.start (some unreachableHandlerSpan) "HTTP GET" [] unreachableClientSpan,
     TraceCall.setStatus unreachableClientSpan StatusCode.error connectionRefused.msg,
     TraceCall.endSpan unreachableClientSpan]
    rfl rfl
  ⟨h.1, h.2.2.1, h.2.2.2.1, by decide⟩

/-! ## Claims on tracing.go -/

theorem mem_foldl_addCert (certs : List X509Cert) (pool : CertPool) (x : X509Cert) :
    x ∈ certs.foldl CertPool.addCert pool ↔ x ∈ pool ∨ x ∈ certs := by
  induction certs generalizing pool with
  | nil => simp
  | cons c rest ih =>
    rw [List.foldl_cons, ih]
    unfold CertPool.addCert
    by_cases hc : c ∈ pool
    · simp only [hc, if_true, List.mem_cons]
      constructor
      · rintro (h | h)
        · exact Or.inl h
        · exact Or.inr (Or.inr h)
      · rintro (h | h | h)
        · exact Or.inl h
        · exact Or.inl (h ▸ hc)
        · exact Or.inr h
    · simp only [hc, if_false, List.mem_append, List.mem_singleton, List.mem_cons]
      tauto

theorem getTls_ok_inv (E : CredEnv) (c : TlsConfig) (h : getTls E = Except.ok c) :
    ∃ clientAuth caCert,
      LoadX509KeyPair E "./confs/client.crt" "./confs/client.key" = Except.ok clientAuth ∧
      E.readFile "./confs/rootCA.crt" = Except.ok caCert ∧
      c = { rootCAs := (AppendCertsFromPEM E NewCertPool caCert).1,
            certificates := [clientAuth], insecureSkipVerify := true } := by
  unfold getTls at h
  split at h
  · exact absurd h (by simp)
  · rename_i clientAuth hkp
    split at h
    · exact absurd h (by simp)
    · rename_i caCert hca
      refine ⟨clientAuth, caCert, hkp, hca, ?_⟩
      injection h with h
      exact h.symm

/-- C4 fails on the code: with a root bundle file that exists but holds no parseable PEM
certificate, the credentials are not usable, `AppendCertsFromPEM` reports `false`, and
yet `getTls` returns a configuration (with an empty root pool) instead of an error. In
the other direction the claim holds: every error of `getTls` comes from unusable
credentials. -/
theorem getTls_accepts_unparseable_root_bundle :
    ¬ credentialsUsable garbageRootCredEnv ∧
    (AppendCertsFromPEM garbageRootCredEnv NewCertPool "not a certificate").2 = false ∧
    getTls garbageRootCredEnv =
      Except.ok
        { rootCAs := [],
          certificates := [{ certPEM := "CLIENT CERTIFICATE", keyPEM := "CLIENT KEY" }],
          insecureSkipVerify := true } ∧
    (∀ (E : CredEnv) (err : GoError), getTls E = Except.error err → ¬ credentialsUsable E) := by
  refine ⟨?_, by decide, rfl, ?_⟩
  · rintro ⟨-, ca, hca, hne⟩
    have hread : garbageRootCredEnv.readFile "./confs/rootCA.crt"
        = Except.ok "not a certificate" := rfl
    rw [hread] at hca
    injection hca with hca
    subst hca
    exact hne (by decide)
  · rintro E err herr ⟨⟨kp, hkp⟩, ca, hca, -⟩
    simp [getTls, hkp, hca] at herr

/-- C5 fails as stated: the configuration that `getTls` returns for well-formed
credentials has `InsecureSkipVerify` set, not cleared. -/
theorem getTls_skips_verification_counterexample :
    ∃ c, getTls goodCredEnv = Except.ok c ∧ c.insecureSkipVerify = true ∧
      ¬ (c.insecureSkipVerify = false) :=
  ⟨goodTlsConfig, rfl, rfl, by decide⟩

/-- C5, amended: every configuration returned successfully by `getTls` presents exactly
the loaded client key pair (`Certificates` is the one-element list holding it), uses as
`RootCAs` the pool built from the loaded root bundle (its members are exactly the
certificates parsed from the bundle), and has `InsecureSkipVerify` set to true. -/
theorem getTls_config_contents (E : CredEnv) (c : TlsConfig) (h : getTls E = Except.ok c) :
    ∃ clientAuth caCert,
      LoadX509KeyPair E "./confs/client.crt" "./confs/client.key" = Except.ok clientAuth ∧
      E.readFile "./confs/rootCA.crt" = Except.ok caCert ∧
      c.certificates = [clientAuth] ∧
      c.rootCAs = (AppendCertsFromPEM E NewCertPool caCert).1 ∧
      (∀ x, x ∈ c.rootCAs ↔ x ∈ E.pemCertificates caCert) ∧
      c.insecureSkipVerify = true := by
  obtain ⟨clientAuth, caCert, hkp, hca, hc⟩ := getTls_ok_inv E c h
  subst hc
  refine ⟨clientAuth, caCert, hkp, hca, rfl, rfl, ?_, rfl⟩
  intro x
  simp [AppendCertsFromPEM, NewCertPool, mem_foldl_addCert]

/-- Witness for the amended C5: the well-formed credentials. -/
theorem getTls_config_contents_witness :
    getTls goodCredEnv = Except.ok goodTlsConfig ∧
    ∃ clientAuth caCert,
      LoadX509KeyPair goodCredEnv "./confs/client.crt" "./confs/client.key"
        = Except.ok clientAuth ∧
      goodCredEnv.readFile "./confs/rootCA.crt" = Except.ok caCert ∧
      goodTlsConfig.certificates = [clientAuth] ∧
      goodTlsConfig.rootCAs = (AppendCertsFromPEM goodCredEnv NewCertPool caCert).1 ∧
      (∀ x, x ∈ goodTlsConfig.rootCAs ↔ x ∈ goodCredEnv.pemCertificates caCert) ∧
      goodTlsConfig.insecureSkipVerify = true :=
  ⟨rfl, getTls_config_contents goodCredEnv goodTlsConfig rfl⟩

/-- C6: when `getTls` fails, `setupTracing` returns that same error and no provider, and
leaves the process-wide state as it was: no exporter is created and no global tracer
provider or propagator is registered; `main` then panics with that error without
having started `serviceA` or `serviceB`. -/
theorem setupTracing_credential_failure (E : TracingEnv) (g : Globals) (name : String)
    (err : GoError) (h : getTls E.cred = Except.error err) :
    setupTracing E g name = (Except.error err, g) ∧
    (setupTracing E g name).2.exporters = g.exporters ∧
    (setupTracing E g name).2.tracerProvider = g.tracerProvider ∧
    (setupTracing E g name).2.propagator = g.propagator ∧
    (∀ S : ServerEnv,
      main E S = { globals := Globals.initial, events := [],
                   outcome := MainOutcome.panicked err } ∧
      MainEvent.goServiceA 8081 ∉ (main E S).events ∧
      MainEvent.serviceB 8082 ∉ (main E S).events ∧
      (main E S).globals.exporters = [] ∧
      (main E S).globals.tracerProvider = none ∧
      (main E S).globals.propagator = none) := by
  have hs : ∀ g2 n2, setupTracing E g2 n2 = (Except.error err, g2) := by
    intro g2 n2
    simp only [setupTracing, h]
  have hm : ∀ S : ServerEnv, main E S =
      { globals := Globals.initial, events := [], outcome := MainOutcome.panicked err } := by
    intro S
    simp only [main, hs]
  refine ⟨hs g name, by rw [hs], by rw [hs], by rw [hs], ?_⟩
  intro S
  rw [hm S]
  exact ⟨rfl, by simp, by simp, rfl, rfl, rfl⟩

/-- Witness for C6: no credential file exists, so loading the certificate fails. -/
theorem setupTracing_credential_failure_witness :
    getTls missingCertTracingEnv.cred = Except.error (fileNotFound "./confs/client.crt") ∧
    setupTracing missingCertTracingEnv Globals.initial serviceName
      = (Except.error (fileNotFound "./confs/client.crt"), Globals.initial) ∧
    main missingCertTracingEnv servingForever =
      { globals := Globals.initial, events := [],
        outcome := MainOutcome.panicked (fileNotFound "./confs/client.crt") } :=
  have h := setupTracing_credential_failure missingCertTracingEnv Globals.initial
    serviceName (fileNotFound "./confs/client.crt") rfl
  ⟨rfl, h.1, (h.2.2.2.2 servingForever).1⟩

/-! ## The traceparent field: encoding and parsing -/

theorem hexValue_hexDigit (d : Nat) (h : d < 16) : hexValue (hexDigit d) = some d := by
  interval_cases d <;> decide

theorem hexDigit_ne_dash (d : Nat) (h : d < 16) : hexDigit d ≠ '-' := by
  interval_cases d <;> decide

theorem hexDecodeFrom_snoc (xs : List Char) (c : Char) (acc : Nat) :
    hexDecodeFrom acc (xs ++ [c]) =
      match hexDecodeFrom acc xs with
      | none => none
      | some a => hexDecodeFrom a [c] := by
  induction xs generalizing acc with
  | nil => simp [hexDecodeFrom]
  | cons x rest ih =>
    simp only [List.cons_append, hexDecodeFrom]
    cases hexValue x with
    | none => rfl
    | some d => exact ih _

theorem hexDecodeFrom_hexEncode (w n acc : Nat) :
    hexDecodeFrom acc (hexEncode w n) = some (acc * 16 ^ w + n % 16 ^ w) := by
  induction w generalizing n with
  | zero => simp [hexEncode, hexDecodeFrom, Nat.mod_one]
  | succ w ih =>
    rw [hexEncode, hexDecodeFrom_snoc, ih]
    simp only [hexDecodeFrom, hexValue_hexDigit (n % 16) (Nat.mod_lt _ (by decide))]
    have hmod : n % 16 ^ (w + 1) = n % 16 + 16 * (n / 16 % 16 ^ w) := by
      rw [pow_succ, Nat.mul_comm (16 ^ w) 16, Nat.mod_mul]
    rw [hmod, pow_succ]
    congr 1
    ring

theorem length_hexEncode (w n : Nat) : (hexEncode w n).length = w := by
  induction w generalizing n with
  | zero => rfl
  | succ w ih => simp [hexEncode, ih]

theorem dash_not_mem_hexEncode (w n : Nat) : '-' ∉ hexEncode w n := by
  induction w generalizing n with
  | zero => simp [hexEncode]
  | succ w ih =>
    simp only [hexEncode, List.mem_append, List.mem_singleton, not_or]
    exact ⟨ih _, fun h => hexDigit_ne_dash (n % 16) (Nat.mod_lt _ (by decide)) h.symm⟩

theorem cutDash_append_dash (a b : List Char) (h : '-' ∉ a) :
    cutDash (a ++ '-' :: b) = (a, b) := by
  induction a with
  | nil => simp [cutDash]
  | cons c rest ih =>
    have hc : c ≠ '-' := fun e => h (e ▸ List.mem_cons_self _ _)
    have hrest : '-' ∉ rest := fun e => h (List.mem_cons_of_mem _ e)
    simp [cutDash, hc, ih hrest]

theorem cutDash_no_dash (a : List Char) (h : '-' ∉ a) : cutDash a = (a, []) := by
  induction a with
  | nil => simp [cutDash]
  | cons c rest ih =>
    have hc : c ≠ '-' := fun e => h (e ▸ List.mem_cons_self _ _)
    have hrest : '-' ∉ rest := fun e => h (List.mem_cons_of_mem _ e)
    simp [cutDash, hc, ih hrest]

theorem extractPart_hexEncode_dash (w n : Nat) (rest : List Char) :
    extractPart w (hexEncode w n ++ '-' :: rest) = some (n % 16 ^ w, rest) := by
  simp [extractPart, cutDash_append_dash _ _ (dash_not_mem_hexEncode w n), length_hexEncode,
    hexDecodeFrom_hexEncode]

theorem extractPart_hexEncode_end (w n : Nat) :
    extractPart w (hexEncode w n) = some (n % 16 ^ w, []) := by
  simp [extractPart, cutDash_no_dash _ (dash_not_mem_hexEncode w n), length_hexEncode,
    hexDecodeFrom_hexEncode]

theorem get_traceparent_inject (sc : SpanContext) (h : sc.isValid = true) :
    Carrier.get (inject sc) "traceparent" = String.mk (traceparentField sc) := by
  unfold inject
  rw [if_pos h]
  by_cases hts : sc.traceState = ""
  · simp [hts, Carrier.set, Carrier.get]
  · simp [hts, Carrier.set, Carrier.get]

theorem get_tracestate_inject (sc : SpanContext) (h : sc.isValid = true) :
    Carrier.get (inject sc) "tracestate" = sc.traceState := by
  unfold inject
  rw [if_pos h]
  by_cases hts : sc.traceState = ""
  · simp [hts, Carrier.set, Carrier.get]
  · simp [hts, Carrier.set, Carrier.get]

theorem traceparentField_ne_nil (sc : SpanContext) : traceparentField sc ≠ [] := by
  intro h
  have hl := congrArg List.length h
  simp [traceparentField, length_hexEncode] at hl

theorem extract_inject (sc : SpanContext) (h : sc.isValid = true) :
    extract (inject sc) = some { sc with remote := true } := by
  have htid : sc.traceID.val % 16 ^ 32 = sc.traceID.val :=
    Nat.mod_eq_of_lt (by have := sc.traceID.isLt; norm_num at this ⊢; exact this)
  have hsid : sc.spanID.val % 16 ^ 16 = sc.spanID.val :=
    Nat.mod_eq_of_lt (by have := sc.spanID.isLt; norm_num at this ⊢; exact this)
  have hfield : traceparentField sc =
      hexEncode 2 0 ++ '-' :: (hexEncode 32 sc.traceID.val ++ '-' ::
        (hexEncode 16 sc.spanID.val ++ '-' :: hexEncode 2 (if sc.sampled then 1 else 0))) := by
    simp [traceparentField, List.append_assoc]
  unfold extract
  simp only [get_traceparent_inject sc h, get_tracestate_inject sc h]
  have hdata : (String.mk (traceparentField sc)).toList = traceparentField sc := rfl
  simp only [hdata]
  rw [if_neg (traceparentField_ne_nil sc), hfield]
  simp only [extractPart_hexEncode_dash, extractPart_hexEncode_end, htid, hsid]
  have ht2 : (⟨sc.traceID.val % 2 ^ 128, Nat.mod_lt _ (by decide)⟩ : Fin (2 ^ 128))
      = sc.traceID := Fin.ext (Nat.mod_eq_of_lt sc.traceID.isLt)
  have hs2 : (⟨sc.spanID.val % 2 ^ 64, Nat.mod_lt _ (by decide)⟩ : Fin (2 ^ 64))
      = sc.spanID := Fin.ext (Nat.mod_eq_of_lt sc.spanID.isLt)
  have hflag : decide ((if sc.sampled = true then 1 else 0) % 16 ^ 2 % 2 = 1) = sc.sampled := by
    cases sc.sampled <;> decide
  have hopts : ¬ ((if sc.sampled = true then 1 else 0) % 16 ^ 2 > 2) := by
    cases sc.sampled <;> decide
  have hvalid : ({ sc with remote := true } : SpanContext).isValid = true := h
  simp only [ht2, hs2, hflag]
  rw [if_neg (by decide), if_neg (fun hc => hc.2.elim (fun hn => hn rfl) hopts), if_pos hvalid]

theorem hexValue_isSome_of_mem (w n : Nat) (c : Char) (h : c ∈ hexEncode w n) :
    (hexValue c).isSome = true := by
  induction w generalizing n with
  | zero => simp [hexEncode] at h
  | succ w ih =>
    simp only [hexEncode, List.mem_append, List.mem_singleton] at h
    rcases h with h | h
    · exact ih _ h
    · rw [h, hexValue_hexDigit _ (Nat.mod_lt _ (by decide))]
      rfl

theorem isValid_of_ne_zero (sc : SpanContext) (ht : sc.traceID.val ≠ 0)
    (hs : sc.spanID.val ≠ 0) : sc.isValid = true := by
  simp [SpanContext.isValid, ht, hs]

theorem ne_zero_of_isValid (sc : SpanContext) (h : sc.isValid = true) :
    sc.traceID.val ≠ 0 ∧ sc.spanID.val ≠ 0 := by
  simpa [SpanContext.isValid] using h

/-! ## Claims on the installed propagator and sampler -/

/-- C8: for every valid span context (non-zero trace id and span id), `inject` writes
the field traceparent as 00-, the trace id in 32 lower-case hexadecimal digits, a
hyphen, the span id in 16 digits, a hyphen, and 01 or 00 for the sampled flag; and
`extract` of the injected carrier yields a context with the same trace id, the span id
of the injecting span (the parent of the downstream span), the same sampled flag and the
same trace state, marked remote. -/
theorem traceparent_round_trip (sc : SpanContext) (ht : sc.traceID.val ≠ 0)
    (hs : sc.spanID.val ≠ 0) :
    extract (inject sc) =
      some { traceID := sc.traceID, spanID := sc.spanID, sampled := sc.sampled,
             traceState := sc.traceState, remote := true } ∧
    Carrier.get (inject sc) "traceparent" =
      String.mk ("00-".toList ++ hexEncode 32 sc.traceID.val ++ "-".toList ++
        hexEncode 16 sc.spanID.val ++ "-".toList ++
        (if sc.sampled then "01" else "00").toList) ∧
    (hexEncode 32 sc.traceID.val).length = 32 ∧
    (hexEncode 16 sc.spanID.val).length = 16 ∧
    (∀ c ∈ hexEncode 32 sc.traceID.val ++ hexEncode 16 sc.spanID.val,
      (hexValue c).isSome = true) ∧
    hexDecodeFrom 0 (hexEncode 32 sc.traceID.val) = some sc.traceID.val ∧
    hexDecodeFrom 0 (hexEncode 16 sc.spanID.val) = some sc.spanID.val := by
  have hv := isValid_of_ne_zero sc ht hs
  refine ⟨extract_inject sc hv, ?_, length_hexEncode _ _, length_hexEncode _ _, ?_, ?_, ?_⟩
  · rw [get_traceparent_inject sc hv]
    have hver : hexEncode 2 0 ++ ['-'] = "00-".toList := by decide
    have hflag : hexEncode 2 (if sc.sampled then 1 else 0)
        = (if sc.sampled then "01" else "00").toList := by
      cases sc.sampled <;> decide
    have hdash : ['-'] = "-".toList := rfl
    unfold traceparentField
    rw [hver, hflag, hdash]
  · intro c hc
    rcases List.mem_append.mp hc with h | h
    · exact hexValue_isSome_of_mem _ _ c h
    · exact hexValue_isSome_of_mem _ _ c h
  · rw [hexDecodeFrom_hexEncode]
    have := sc.traceID.isLt
    simp only [Nat.zero_mul, Nat.zero_add]
    exact congrArg some (Nat.mod_eq_of_lt (by norm_num at this ⊢; exact this))
  · rw [hexDecodeFrom_hexEncode]
    have := sc.spanID.isLt
    simp only [Nat.zero_mul, Nat.zero_add]
    exact congrArg some (Nat.mod_eq_of_lt (by norm_num at this ⊢; exact this))

/-- Witness for C8: a sampled context with a trace state. -/
theorem traceparent_round_trip_witness :
    Carrier.get (inject sampleSpanContext) "traceparent"
      = "00-4bf92f3577b34da6a3ce929d0e0e4736-00f067aa0ba902b7-01" ∧
    extract (inject sampleSpanContext) = some { sampleSpanContext with remote := true } :=
  ⟨by decide, (traceparent_round_trip sampleSpanContext (by decide) (by decide)).1⟩

theorem shouldSample_parentBased_valid (root : Sampler) (psc : SpanContext)
    (tid : Fin (2 ^ 128)) (h : psc.isValid = true) :
    shouldSample (Sampler.parentBased root) { parentContext := some psc, traceID := tid }
      = psc.sampled := by
  simp [shouldSample, h]

theorem startSpan_valid_parent (root : Sampler) (psc : SpanContext) (fresh : FreshIds)
    (h : psc.isValid = true) :
    startSpan (Sampler.parentBased root) (some psc) fresh =
      { traceID := psc.traceID, spanID := fresh.spanID, sampled := psc.sampled,
        traceState := psc.traceState, remote := false } := by
  simp [startSpan, h, shouldSample_parentBased_valid]

theorem growTrace_invariant (root : Sampler) (spans : List SpanContext) (st : SpanStep)
    (b : Bool) (t : Fin (2 ^ 128))
    (hinv : ∀ sc ∈ spans, sc.isValid = true ∧ sc.sampled = b ∧ sc.traceID = t)
    (hfresh : st.fresh.spanID.val ≠ 0) :
    ∀ sc ∈ growTrace (Sampler.parentBased root) spans st,
      sc.isValid = true ∧ sc.sampled = b ∧ sc.traceID = t := by
  unfold growTrace
  cases hget : spans.get? st.parentIndex with
  | none => exact hinv
  | some p =>
    obtain ⟨hpv, hpb, hpt⟩ := hinv p (List.get?_mem hget)
    have hparent : ∃ q : SpanContext,
        (if st.crossProcess then extract (inject p) else some p) = some q ∧
        q.isValid = true ∧ q.sampled = b ∧ q.traceID = t := by
      by_cases hc : st.crossProcess = true
      · exact ⟨{ p with remote := true }, by rw [if_pos hc, extract_inject p hpv], hpv, hpb, hpt⟩
      · exact ⟨p, by rw [if_neg hc], hpv, hpb, hpt⟩
    obtain ⟨q, hq, hqv, hqb, hqt⟩ := hparent
    intro sc hsc
    simp only [hq, List.mem_append, List.mem_singleton] at hsc
    rcases hsc with hsc | hsc
    · exact hinv sc hsc
    · rw [hsc, startSpan_valid_parent root q st.fresh hqv]
      refine ⟨?_, hqb, hqt⟩
      exact isValid_of_ne_zero _ (ne_zero_of_isValid q hqv).1 hfresh

theorem foldl_growTrace_invariant (root : Sampler) (steps : List SpanStep)
    (spans : List SpanContext) (b : Bool) (t : Fin (2 ^ 128))
    (hinv : ∀ sc ∈ spans, sc.isValid = true ∧ sc.sampled = b ∧ sc.traceID = t)
    (hsteps : ∀ st ∈ steps, st.fresh.spanID.val ≠ 0) :
    ∀ sc ∈ steps.foldl (growTrace (Sampler.parentBased root)) spans,
      sc.isValid = true ∧ sc.sampled = b ∧ sc.traceID = t := by
  induction steps generalizing spans with
  | nil => exact hinv
  | cons st rest ih =>
    rw [List.foldl_cons]
    apply ih
    · exact growTrace_invariant root spans st b t hinv (hsteps st (List.mem_cons_self _ _))
    · exact fun st2 h2 => hsteps st2 (List.mem_cons_of_mem _ h2)

theorem growTrace_head (sampler : Sampler) (spans : List SpanContext) (st : SpanStep)
    (x : SpanContext) (h : spans.head? = some x) :
    (growTrace sampler spans st).head? = some x := by
  unfold growTrace
  split
  · exact h
  · cases spans with
    | nil => simp at h
    | cons y rest => simpa using h

theorem foldl_growTrace_head (sampler : Sampler) (steps : List SpanStep)
    (spans : List SpanContext) (x : SpanContext) (h : spans.head? = some x) :
    (steps.foldl (growTrace sampler) spans).head? = some x := by
  induction steps generalizing spans with
  | nil => exact h
  | cons st rest ih =>
    rw [List.foldl_cons]
    exact ih _ (growTrace_head sampler spans st x h)

theorem setupTracing_ok_inv (E : TracingEnv) (g : Globals) (name : String)
    (tp : TracerProvider) (g2 : Globals) (h : setupTracing E g name = (Except.ok tp, g2)) :
    tp.sampler = Sampler.parentBased (Sampler.traceIDRatioBased 6 10) ∧
    g2.tracerProvider = some tp ∧
    g2.propagator = some [BasePropagator.traceContext] := by
  unfold setupTracing at h
  split at h
  · simp at h
  · split at h
    · simp at h
    · simp only [Prod.mk.injEq, Except.ok.injEq] at h
      obtain ⟨h1, h2⟩ := h
      subst h1
      subst h2
      exact ⟨rfl, rfl, rfl⟩

/-- C7: `setupTracing` installs the sampler parent-based over the trace-id ratio 0.6.
Under a parent-based sampler, whatever its root sampler and whatever the ratio and the
trace id, a span started with a valid parent context gets the sampled flag of the
parent, so the root sampler is consulted only when there is no parent. Hence in a trace
grown from a root span, with parents reached directly or through `inject` and `extract`,
every span has the trace id and the sampled flag of the root. -/
theorem parent_based_sampling_invariant (root : Sampler) (num den : Nat) (psc : SpanContext)
    (tid : Fin (2 ^ 128)) (rootIds : FreshIds) (steps : List SpanStep)
    (hpsc : psc.isValid = true)
    (hroot : rootIds.traceID.val ≠ 0 ∧ rootIds.spanID.val ≠ 0)
    (hsteps : ∀ st ∈ steps, st.fresh.spanID.val ≠ 0) :
    (∀ (E : TracingEnv) (g : Globals) (name : String) (tp : TracerProvider) (g2 : Globals),
      setupTracing E g name = (Except.ok tp, g2) →
        tp.sampler = Sampler.parentBased (Sampler.traceIDRatioBased 6 10) ∧
        g2.tracerProvider = some tp) ∧
    shouldSample (Sampler.parentBased (Sampler.traceIDRatioBased num den))
      { parentContext := some psc, traceID := tid } = psc.sampled ∧
    shouldSample (Sampler.parentBased root)
      { parentContext := some psc, traceID := tid } = psc.sampled ∧
    (∀ fresh : FreshIds,
      (startSpan (Sampler.parentBased root) (some psc) fresh).sampled = psc.sampled ∧
      (startSpan (Sampler.parentBased root) (some psc) fresh).traceID = psc.traceID) ∧
    shouldSample (Sampler.parentBased root) { parentContext := none, traceID := tid }
      = shouldSample root { parentContext := none, traceID := tid } ∧
    (buildTrace (Sampler.parentBased root) rootIds steps).head?
      = some (startSpan (Sampler.parentBased root) none rootIds) ∧
    (∀ sc ∈ buildTrace (Sampler.parentBased root) rootIds steps,
      sc.sampled = (startSpan (Sampler.parentBased root) none rootIds).sampled ∧
      sc.traceID = rootIds.traceID) := by
  refine ⟨?_, shouldSample_parentBased_valid _ psc tid hpsc,
    shouldSample_parentBased_valid _ psc tid hpsc, ?_, ?_, ?_, ?_⟩
  · intro E g name tp g2 h
    exact ⟨(setupTracing_ok_inv E g name tp g2 h).1, (setupTracing_ok_inv E g name tp g2 h).2.1⟩
  · intro fresh
    rw [startSpan_valid_parent root psc fresh hpsc]
    exact ⟨rfl, rfl⟩
  · simp [shouldSample]
  · exact foldl_growTrace_head _ steps _ _ rfl
  · intro sc hsc
    have hinit : ∀ sc2 ∈ [startSpan (Sampler.parentBased root) none rootIds],
        sc2.isValid = true ∧
        sc2.sampled = (startSpan (Sampler.parentBased root) none rootIds).sampled ∧
        sc2.traceID = rootIds.traceID := by
      intro sc2 h2
      rw [List.mem_singleton] at h2
      subst h2
      exact ⟨isValid_of_ne_zero _ hroot.1 hroot.2, rfl, rfl⟩
    have hall := foldl_growTrace_invariant root steps _ _ _ hinit hsteps sc hsc
    exact ⟨hall.2.1, hall.2.2⟩

/-- Witness for C7: a trace of four spans over two processes under the installed
sampler; the root is sampled by the ratio sampler and so is every other span. -/
theorem parent_based_sampling_invariant_witness :
    (buildTrace installedSampler sampleRootIds sampleSteps).length = 4 ∧
    (startSpan installedSampler none sampleRootIds).sampled = true ∧
    (∀ sc ∈ buildTrace installedSampler sampleRootIds sampleSteps,
      sc.sampled = (startSpan installedSampler none sampleRootIds).sampled ∧
      sc.traceID = sampleRootIds.traceID) :=
  ⟨by decide, by decide,
    (parent_based_sampling_invariant (Sampler.traceIDRatioBased 6 10) 6 10 sampleSpanContext
      7 sampleRootIds sampleSteps (by decide) (by decide) (by decide)).2.2.2.2.2.2⟩

end OtlpSample
